import Mathlib

/-!
Verification development for the Network Share Automount extension
(`src/extension.js`).  The mutable state of the `NetworkMountIndicator`
class is embedded as an explicit state structure, its methods as pure
state-passing functions, and the GSettings schema defaults
(`src/unnamed/part_000`) as a concrete `Settings` value.  Filesystem and
OS mount state are modelled as association lists, matching the way the
code only ever queries them point-wise (`query_exists`, `query_info`,
`find_enclosing_mount`).
-/

namespace NetworkShareAutomount

/-- Association-list lookup, first match wins (models `Map.get` /
point-wise filesystem queries). -/
def lookupA {α : Type} (k : String) : List (String × α) → Option α
  | [] => none
  | (k', v) :: rest => if k' = k then some v else lookupA k rest

/-- Association-list key removal (models `Map.delete` / `file.delete`). -/
def eraseA {α : Type} (k : String) : List (String × α) → List (String × α)
  | [] => []
  | e :: t => if e.1 = k then eraseA k t else e :: eraseA k t

/-- Association-list update (models `Map.set`). -/
def setA {α : Type} (k : String) (v : α) (l : List (String × α)) : List (String × α) :=
  (k, v) :: eraseA k l

/-- Filesystem entry kinds distinguished by the code via
`query_info('standard::is-symlink', NOFOLLOW_SYMLINKS)`. -/
inductive Entry : Type
  | file : Entry
  | dir : Entry
  | symlink (target : String) : Entry
deriving DecidableEq, Repr

/-- The flat filesystem model: path → entry. -/
abbrev Fs := List (String × Entry)

/-- True when the optional entry is a symbolic link. -/
def isSymlinkEntry : Option Entry → Bool
  | some (Entry.symlink _) => true
  | _ => false

/-- Models `query_exists(null)` with Gio's default follow-symlinks
semantics: a file or directory entry exists; a symbolic link exists
only when its target does (a dangling link reports false). -/
def existsFollow (fs : Fs) (p : String) : Bool :=
  match lookupA p fs with
  | none => false
  | some (Entry.symlink t) => (lookupA t fs).isSome
  | some _ => true

/-- The entry at `p` is a symbolic link whose target still resolves —
exactly the condition under which `_removeSymlink` deletes it. -/
def liveSymlinkAt (fs : Fs) (p : String) : Bool :=
  existsFollow fs p && isSymlinkEntry (lookupA p fs)

/-- A bookmark as built by `_loadBookmarks` (lines 202-210 of
`src/extension.js`). -/
structure Bookmark : Type where
  uri : String
  name : String
  enabled : Bool
  createSymlink : Bool
  symlinkPath : String
  lastAttempt : Nat
  failCount : Nat
deriving DecidableEq, Repr

/-- The extension configuration read through `this._settings`
(schema `src/unnamed/part_000`). -/
structure Settings : Type where
  checkInterval : Int
  showNotifications : Bool
  showSuccessNotifications : Bool
  showErrorNotifications : Bool
  customMountBase : String
  retryAttempts : Int
  retryDelay : Int
deriving DecidableEq, Repr

/-- The schema defaults of `src/unnamed/part_000`. -/
def defaultSettings : Settings :=
  { checkInterval := 5
    showNotifications := true
    showSuccessNotifications := false
    showErrorNotifications := true
    customMountBase := ""
    retryAttempts := 3
    retryDelay := 30 }

/-- A notification emission: `_notify(title, message, isError)` call
arguments. -/
structure Notification : Type where
  title : String
  message : String
  isError : Bool
deriving DecidableEq, Repr

/-- Whether `_notify` (lines 100-110) actually shows a notification,
given the settings and the `isError` flag. -/
def notifyShown (s : Settings) (isError : Bool) : Bool :=
  if !s.showNotifications then false
  else if isError && !s.showErrorNotifications then false
  else if !isError && !s.showSuccessNotifications then false
  else true

/-- The character class `[<>:"/\\|?*]` of `_sanitizeForFilename`. -/
def isSpecialChar (c : Char) : Bool :=
  c = '<' || c = '>' || c = ':' || c = '"' || c = '/' || c = '\\' ||
  c = '|' || c = '?' || c = '*'

/-- The regex class `\s` restricted to the ASCII whitespace the code can
meet in bookmark names. -/
def isJsWhitespace (c : Char) : Bool :=
  c = ' ' || c = '\t' || c = '\n' || c = '\r' || c = '\x0b' || c = '\x0c'

/-- Replace every maximal run of characters satisfying `p` by the single
character `r` (models `replace(/X+/g, '_')`).  The flag records whether
the previous character was inside a run. -/
def collapseRunsAux (p : Char → Bool) (r : Char) : Bool → List Char → List Char
  | _, [] => []
  | inRun, c :: cs =>
    if p c then
      if inRun then collapseRunsAux p r true cs
      else r :: collapseRunsAux p r true cs
    else c :: collapseRunsAux p r false cs

def collapseRuns (p : Char → Bool) (r : Char) (l : List Char) : List Char :=
  collapseRunsAux p r false l

/-- Drop one leading underscore. -/
def dropLeadUnderscore : List Char → List Char
  | [] => []
  | a :: t => if a = '_' then t else a :: t

/-- Drop one leading and one trailing underscore
(models `replace(/^_|_$/g, '')`). -/
def trimEdgeUnderscores (l : List Char) : List Char :=
  (dropLeadUnderscore (dropLeadUnderscore l).reverse).reverse

/-- Embeds `_sanitizeForFilename` (lines 463-469): replace each character of
`<>:"/\\|?*` by `_`, then each whitespace run by `_`, then collapse
underscore runs, then trim edge underscores. -/
def sanitizeForFilename (name : String) : String :=
  let s1 := name.data.map (fun c => if isSpecialChar c then '_' else c)
  let s2 := collapseRuns isJsWhitespace '_' s1
  let s3 := collapseRuns (fun c => c = '_') '_' s2
  ⟨trimEdgeUnderscores s3⟩

/-- Embeds `_getSymlinkPath` (lines 446-461): `basePath/linkName` where
`basePath` falls back to `homeDir/NetworkMounts` when the
`custom-mount-base` setting is empty, and `linkName` is the
`symlinkPath` override when non-empty, else the sanitized name. -/
def getSymlinkPath (s : Settings) (homeDir : String) (b : Bookmark) : String :=
  let basePath := if s.customMountBase = "" then homeDir ++ "/NetworkMounts"
                  else s.customMountBase
  let linkName := if b.symlinkPath = "" then sanitizeForFilename b.name
                  else b.symlinkPath
  basePath ++ "/" ++ linkName

/-- Modelled from the spec: the sanitization procedure exactly as the
claim words it — every character of the special class and every
whitespace run is replaced by a single underscore, and leading and
trailing underscores are trimmed (no collapsing of resulting
underscore runs is mentioned). -/
def sanitizeSpecWorded (name : String) : String :=
  let s1 := name.data.map (fun c => if isSpecialChar c then '_' else c)
  let s2 := collapseRuns isJsWhitespace '_' s1
  ⟨(s2.dropWhile (fun c => c = '_')).reverse.dropWhile (fun c => c = '_') |>.reverse⟩

/-- Models `GLib.path_get_dirname` restricted to paths that contain a slash:
everything before the last `/`.  (Paths built by `_getSymlinkPath`
always contain a slash.)  Slash-free paths map to `.` as in GLib. -/
def dirname (p : String) : String :=
  if p.data.contains '/' then
    ⟨((p.data.reverse.dropWhile (fun c => c ≠ '/')).drop 1).reverse⟩
  else "."

/-- A pending one-shot retry timeout created by `_scheduleRetry`
(lines 630-639): the GLib source id, the bookmark URI it was armed for,
and the delay in seconds. -/
structure RetryTask : Type where
  id : Nat
  uri : String
  delay : Int
deriving DecidableEq, Repr

/-- The mutable state of the `NetworkMountIndicator` instance:
`this._bookmarks`, `this._symlinkPaths` (URI → tracked symlink path),
`this._mountedLocations`, the retry members of `this._timeoutIds`,
the periodic `this._timeoutId`, a fresh-id counter for GLib source ids,
and the filesystem the symlink operations act on. -/
structure ExtState : Type where
  bookmarks : List Bookmark
  symlinkPaths : List (String × String)
  mountedLocations : List (String × Nat)
  retryTasks : List RetryTask
  timeoutId : Option Nat
  nextId : Nat
  fs : Fs
deriving DecidableEq, Repr

/-- The OS mount table as observed through Gio: URI → real (GVFS) mount
path.  `_isLocationMounted` is membership, `_getGvfsMountPath` is the
lookup. -/
abbrev Mounts := List (String × String)

/-- Embeds `_isLocationMounted` (lines 422-430). -/
def isLocationMounted (mounts : Mounts) (uri : String) : Bool :=
  (lookupA uri mounts).isSome

/-- Embeds `_removeSymlink` (lines 520-545): locate the link via the tracked
map or recompute it; delete the entry only when `query_exists` reports
it (line 529 — follow-symlinks, so a dangling link is skipped) and the
`NOFOLLOW` info confirms a symbolic link; delete the tracked record in
every (non-throwing) case. -/
def removeSymlink (s : Settings) (homeDir : String) (st : ExtState)
    (b : Bookmark) : ExtState :=
  { st with
    fs :=
      if existsFollow st.fs
          ((lookupA b.uri st.symlinkPaths).getD (getSymlinkPath s homeDir b)) &&
         isSymlinkEntry (lookupA
          ((lookupA b.uri st.symlinkPaths).getD (getSymlinkPath s homeDir b))
          st.fs) then
        eraseA ((lookupA b.uri st.symlinkPaths).getD (getSymlinkPath s homeDir b))
          st.fs
      else st.fs
    symlinkPaths := eraseA b.uri st.symlinkPaths }

/-- The `make_directory_with_parents` step of `_createSymlink`
(lines 488-497): create the base directory, tolerating an already
existing entry as the code tolerates `EXISTS`. -/
def mkBaseDir (st : ExtState) (d : String) : ExtState :=
  if (lookupA d st.fs).isSome then st
  else { st with fs := (d, Entry.dir) :: st.fs }

/-- Embeds `_createSymlink` (lines 471-518): no-op unless `createSymlink`;
requires a resolved GVFS mount path; creates the base directory, removes
any existing symlink via `_removeSymlink`, then creates the link —
which fails, leaving the state as is, when anything still occupies the
desired path. -/
def createSymlink (s : Settings) (homeDir : String) (mounts : Mounts)
    (st : ExtState) (b : Bookmark) : ExtState :=
  if !b.createSymlink then st
  else
    match lookupA b.uri mounts with
    | none => st
    | some gvfsPath =>
      let st2 := removeSymlink s homeDir
        (mkBaseDir st (dirname (getSymlinkPath s homeDir b))) b
      match lookupA (getSymlinkPath s homeDir b) st2.fs with
      | some _ => st2
      | none =>
        { st2 with
          fs := (getSymlinkPath s homeDir b, Entry.symlink gvfsPath) :: st2.fs
          symlinkPaths := setA b.uri (getSymlinkPath s homeDir b)
            st2.symlinkPaths }

/-- Embeds `_scheduleRetry` (lines 630-639): arm a fresh one-shot timeout and
add its id to `this._timeoutIds`; nothing is cancelled or replaced. -/
def scheduleRetry (st : ExtState) (b : Bookmark) (delaySecs : Int) : ExtState :=
  { st with
    retryTasks := st.retryTasks ++ [{ id := st.nextId, uri := b.uri, delay := delaySecs }]
    nextId := st.nextId + 1 }

/-- Embeds `_handleMountFailure` (lines 604-628): bump `failCount`, stamp
`lastAttempt`; schedule a retry and notify "retrying" when the new
count is within `retry-attempts`, otherwise notify terminal failure.
Returns the updated bookmark, state, and the `_notify` call made. -/
def handleMountFailure (s : Settings) (now : Nat) (st : ExtState)
    (b : Bookmark) (errorMsg : String) : Bookmark × ExtState × Notification :=
  let b' := { b with failCount := b.failCount + 1, lastAttempt := now }
  if (b'.failCount : Int) ≤ s.retryAttempts then
    (b', scheduleRetry st b' s.retryDelay,
     { title := "Mount Failed - Retrying"
       message := b.name
       isError := true })
  else
    (b', st,
     { title := "Mount Failed"
       message := b.name ++ ": " ++ errorMsg
       isError := true })

/-- The toggled handler of the Auto Mount switch
(lines 336-343 of `_populateBookmarkSubmenu`): mutate
`this._bookmarks[index].enabled`; pending timeouts are untouched. -/
def setEnabled (st : ExtState) (index : Nat) (state : Bool) : ExtState :=
  { st with
    bookmarks :=
      match st.bookmarks[index]? with
      | none => st.bookmarks
      | some b => st.bookmarks.set index { b with enabled := state } }

/-- The retry timeout callback (lines 631-637): drop the fired source
id, and call `_mountLocation` only when the bookmark is still enabled
and still unmounted.  The mount attempt itself is returned as the
boolean. -/
def fireRetry (mounts : Mounts) (st : ExtState) (t : RetryTask) :
    ExtState × Bool :=
  let st' := { st with retryTasks := st.retryTasks.filter (fun x => x.id ≠ t.id) }
  match st'.bookmarks.find? (fun b => b.uri = t.uri) with
  | none => (st', false)
  | some b => (st', b.enabled && !isLocationMounted mounts t.uri)

/-- The actions `_checkAndMountAll` (lines 686-716) takes for one
bookmark of the (re)loaded list. -/
inductive Action : Type
  | mountAttempt (uri : String) : Action
  | ensureSymlink (uri : String) : Action
deriving DecidableEq, Repr

/-- The per-bookmark branch of the `forEach` in `_checkAndMountAll`
(lines 693-711). -/
def reconcileOne (mounts : Mounts) (b : Bookmark) : List Action :=
  if b.enabled then
    if isLocationMounted mounts b.uri then
      if b.createSymlink then [Action.ensureSymlink b.uri] else []
    else [Action.mountAttempt b.uri]
  else
    if isLocationMounted mounts b.uri && b.createSymlink then
      [Action.ensureSymlink b.uri]
    else []

/-- All actions of one `_checkAndMountAll` pass over the given
(re)loaded bookmark list. -/
def reconcileActions (mounts : Mounts) (bookmarks : List Bookmark) : List Action :=
  (bookmarks.map (reconcileOne mounts)).flatten

/-- The summary `_notify` of `_checkAndMountAll` (lines 713-715): only
on a manual check, and with the default `isError = false`. -/
def checkAndMountAllNotification (manual : Bool) (total mounted : Nat) :
    Option Notification :=
  if manual then
    some { title := "Mount Check"
           message := "Checking " ++ toString total ++ " locations, " ++
                      toString mounted ++ " already mounted"
           isError := false }
  else none

/-- The summary `_notify` of `_mountAllEnabled` (line 729), default
`isError = false`. -/
def mountAllEnabledNotification (count : Nat) : Notification :=
  { title := "Mounting All"
    message := "Attempting to mount " ++ toString count ++ " locations"
    isError := false }

/-- The summary `_notify` of `_unmountAll` (line 741), default
`isError = false`. -/
def unmountAllNotification (count : Nat) : Notification :=
  { title := "Unmounting All"
    message := "Unmounting " ++ toString count ++ " locations"
    isError := false }

/-- The body of the `forEach` in `_cleanupAllSymlinks` (lines 771-775):
remove the symlink of a bookmark when `createSymlink` is set. -/
def cleanupStep (s : Settings) (homeDir : String) (acc : ExtState)
    (b : Bookmark) : ExtState :=
  if b.createSymlink then removeSymlink s homeDir acc b else acc

/-- Embeds `_cleanupAllSymlinks` (lines 769-777): `_removeSymlink` for every
bookmark with `createSymlink`, then clear the tracked map. -/
def cleanupAllSymlinks (s : Settings) (homeDir : String) (st : ExtState) :
    ExtState :=
  let st' := st.bookmarks.foldl (cleanupStep s homeDir) st
  { st' with symlinkPaths := [] }

/-- Embeds `destroy` (lines 779-801): remove the periodic timeout, remove all
tracked timeouts, then clean up all symlinks. -/
def destroy (s : Settings) (homeDir : String) (st : ExtState) : ExtState :=
  let st1 := { st with timeoutId := none }
  let st2 := { st1 with retryTasks := [] }
  cleanupAllSymlinks s homeDir st2

/-- The outcome of one `_mountLocation` call. -/
structure MountOutcome : Type where
  bookmark : Bookmark
  state : ExtState
  notification : Option Notification
deriving Repr

/-- Embeds `_mountLocation` (lines 547-602).  `mounts` is the mount table at
entry, `succeeds` the result of the asynchronous
`mount_enclosing_volume` call, `newMountPath` the GVFS path resolved
after a successful mount.  The deferred symlink-creation timeout of the
success branch is modelled as already fired. -/
def mountLocation (s : Settings) (homeDir : String) (now : Nat)
    (mounts : Mounts) (succeeds : Bool) (newMountPath : String)
    (st : ExtState) (b : Bookmark) (isRetry isStartup : Bool) : MountOutcome :=
  if isLocationMounted mounts b.uri then
    { bookmark := b
      state := createSymlink s homeDir mounts st b
      notification :=
        if !isRetry && !isStartup then
          some { title := "Already Mounted", message := b.name, isError := false }
        else none }
  else if succeeds then
    let b' := { b with failCount := 0, lastAttempt := now }
    let mounts' := setA b.uri newMountPath mounts
    let st1 := { st with mountedLocations := setA b.uri now st.mountedLocations }
    { bookmark := b'
      state := createSymlink s homeDir mounts' st1 b'
      notification :=
        if !isStartup then
          some { title := "Mounted Successfully", message := b.name, isError := false }
        else none }
  else
    let (b', st', n) := handleMountFailure s now st b "error"
    { bookmark := b', state := st', notification := some n }

/-- Persisted per-bookmark settings entry: the JSON object fields are
optional (`settings.enabled !== false`, `|| false`, `|| ''`). -/
structure PersistedEntry : Type where
  enabled : Option Bool
  createSymlink : Option Bool
  symlinkPath : Option String
deriving DecidableEq, Repr

/-- The body of the `forEach` in `_loadBookmarkSettings`
(lines 228-235). -/
def applyPersistedEntry (m : List (String × PersistedEntry)) (b : Bookmark) :
    Bookmark :=
  match lookupA b.uri m with
  | none => b
  | some e =>
    { b with
      enabled := e.enabled ≠ some false
      createSymlink := e.createSymlink.getD false
      symlinkPath := e.symlinkPath.getD "" }

/-- Embeds `_loadBookmarkSettings` (lines 222-239), with the outcome of
`JSON.parse` passed in (`none` = parse threw).  Returns the updated
bookmark list and whether the catch branch logged a diagnostic; the
parse error never escapes the function. -/
def loadBookmarkSettings (parsed : Option (List (String × PersistedEntry)))
    (bookmarks : List Bookmark) : List Bookmark × Bool :=
  match parsed with
  | none => (bookmarks, true)
  | some m => (bookmarks.map (applyPersistedEntry m), false)

/-- Does the character sequence start with the given pattern?
(models JS `startsWith`). -/
def startsWithSeq : List Char → List Char → Bool
  | _, [] => true
  | [], _ :: _ => false
  | a :: s, b :: p => a = b && startsWithSeq s p

/-- Does the character sequence contain the pattern as a contiguous
subsequence?  (models JS `includes`). -/
def containsSeq (s p : List Char) : Bool :=
  match s with
  | [] => p.isEmpty
  | _ :: t => startsWithSeq s p || containsSeq t p

/-- Accumulator pass of `splitOnChar`. -/
def splitOnCharAux (sep : Char) : List Char → List Char → List (List Char)
  | acc, [] => [acc.reverse]
  | acc, c :: cs =>
    if c = sep then acc.reverse :: splitOnCharAux sep [] cs
    else splitOnCharAux sep (c :: acc) cs

/-- Split on a separator character (models JS `split`). -/
def splitOnChar (sep : Char) (l : List Char) : List (List Char) :=
  splitOnCharAux sep [] l

/-- Join with single spaces (models JS `join(' ')`). -/
def joinWithSpace : List (List Char) → List Char
  | [] => []
  | [x] => x
  | x :: y :: t => x ++ ' ' :: joinWithSpace (y :: t)

/-- Strip surrounding whitespace (models JS `trim`). -/
def jsTrim (l : List Char) : List Char :=
  ((l.dropWhile isJsWhitespace).reverse.dropWhile isJsWhitespace).reverse

/-- The part after the first `://`, when the sequence has one. -/
def afterScheme : List Char → Option (List Char)
  | [] => none
  | a :: t =>
    if startsWithSeq (a :: t) [':', '/', '/'] then some ((a :: t).drop 3)
    else afterScheme t

/-- Embeds `_extractNameFromUri` (lines 258-267), modelling
`GLib.Uri.parse`: host is the segment after `://` up to the next `/`,
path the remainder; a URI without a scheme separator fails to parse and
falls back to the URI itself. -/
def extractNameFromUri (uri : String) : String :=
  match afterScheme uri.data with
  | some rest =>
    let host : List Char := rest.takeWhile (fun c => c ≠ '/')
    let path : List Char := rest.dropWhile (fun c => c ≠ '/')
    if path.length > 1 then ⟨host ++ path⟩ else ⟨host⟩
  | none => uri

/-- One line of the bookmarks file turned into a Bookmark
(lines 199-211): fields besides `uri`/`name` take the literal
defaults. -/
def bookmarkOfLine (line : String) : Bookmark :=
  let parts := splitOnChar ' ' (jsTrim line.data)
  let uri : String := ⟨parts.headD []⟩
  let joined := joinWithSpace parts.tail
  { uri := uri
    name := if joined.isEmpty then extractNameFromUri uri else ⟨joined⟩
    enabled := true
    createSymlink := false
    symlinkPath := ""
    lastAttempt := 0
    failCount := 0 }

/-- The filter + map of `_loadBookmarks` (lines 196-211): keep the
non-blank lines that contain a scheme separator and are not local
`file://` entries. -/
def parseBookmarks (contents : String) : List Bookmark :=
  ((splitOnChar '\n' contents.data).filter
    (fun line => !(jsTrim line).isEmpty &&
      containsSeq line [':', '/', '/'] &&
      !startsWithSeq line ['f', 'i', 'l', 'e', ':', '/', '/'])).map
    (fun l => bookmarkOfLine ⟨l⟩)

/-- Number of pending retry tasks armed for a given URI. -/
def countTasksFor (u : String) (l : List RetryTask) : Nat :=
  (l.filter (fun t => t.uri = u)).length

/-- The tracked symlink record for a bookmark is either absent or equal
to the currently computed desired path (i.e. not stale). -/
def trackedConsistent (s : Settings) (homeDir : String) (st : ExtState)
    (b : Bookmark) : Prop :=
  lookupA b.uri st.symlinkPaths = none ∨
  lookupA b.uri st.symlinkPaths = some (getSymlinkPath s homeDir b)

/-- A typical bookmark with symlink maintenance enabled. -/
def sampleBookmark : Bookmark :=
  { uri := "smb://server/share", name := "Share", enabled := true
    createSymlink := true, symlinkPath := "", lastAttempt := 0, failCount := 0 }

/-- A quiescent controller state holding `sampleBookmark`. -/
def emptyState : ExtState :=
  { bookmarks := [sampleBookmark], symlinkPaths := [], mountedLocations := []
    retryTasks := [], timeoutId := none, nextId := 0, fs := [] }

/-- A state with one pending retry task for `sampleBookmark`. -/
def retryState : ExtState :=
  { bookmarks := [sampleBookmark], symlinkPaths := [], mountedLocations := []
    retryTasks := [{ id := 7, uri := "smb://server/share", delay := 30 }]
    timeoutId := none, nextId := 8, fs := [] }

/-- A bookmark whose symlink maintenance has been switched off while a
symlink created earlier is still tracked. -/
def staleBookmark : Bookmark :=
  { uri := "smb://h/s", name := "S", enabled := true
    createSymlink := false, symlinkPath := "", lastAttempt := 0, failCount := 0 }

/-- A controller state owning a tracked on-disk symlink (with live
target) for `staleBookmark`, one pending retry task and the periodic
timer. -/
def staleState : ExtState :=
  { bookmarks := [staleBookmark]
    symlinkPaths := [("smb://h/s", "/base/S")]
    mountedLocations := []
    retryTasks := [{ id := 3, uri := "smb://h/s", delay := 30 }]
    timeoutId := some 1, nextId := 4
    fs := [("/base/S", Entry.symlink "/gvfs/x"), ("/gvfs/x", Entry.dir)] }

/-- A bookmark with symlink maintenance on whose share is unmounted:
its symlink's GVFS target is gone, so the link dangles. -/
def danglingBookmark : Bookmark :=
  { uri := "smb://d/s", name := "D", enabled := true
    createSymlink := true, symlinkPath := "", lastAttempt := 0, failCount := 0 }

/-- A controller state tracking a dangling symlink for
`danglingBookmark`: the target `/gvfs/gone` has no entry. -/
def danglingState : ExtState :=
  { bookmarks := [danglingBookmark]
    symlinkPaths := [("smb://d/s", "/b/D")]
    mountedLocations := []
    retryTasks := [], timeoutId := none, nextId := 0
    fs := [("/b/D", Entry.symlink "/gvfs/gone")] }

/-- A bookmark with an explicit symlink leaf-name override. -/
def overrideBookmark : Bookmark :=
  { uri := "u", name := "n", enabled := true
    createSymlink := true, symlinkPath := "L", lastAttempt := 0, failCount := 0 }

/-- Settings with a custom symlink base directory. -/
def baseSettings : Settings :=
  { defaultSettings with customMountBase := "/base" }

/-- A state whose tracked symlink record for `overrideBookmark` is stale:
it points at `/base/M` while the currently computed desired path is
`/base/L`, and live symlinks exist at both paths. -/
def staleTrackState : ExtState :=
  { bookmarks := [overrideBookmark]
    symlinkPaths := [("u", "/base/M")]
    mountedLocations := []
    retryTasks := [], timeoutId := none, nextId := 0
    fs := [("/base/M", Entry.symlink "/g1"), ("/base/L", Entry.symlink "/g2"),
           ("/g1", Entry.dir), ("/g2", Entry.dir)] }

/-- A bookmark whose display name contains two adjacent special
characters. -/
def claimLeafBookmark : Bookmark :=
  { uri := "x://y", name := "a::b", enabled := true
    createSymlink := true, symlinkPath := "", lastAttempt := 0, failCount := 0 }

/-- First bookmark of the two-symlink destruction scenario. -/
def linkBookmarkA : Bookmark :=
  { uri := "smb://a/x", name := "A", enabled := true
    createSymlink := true, symlinkPath := "", lastAttempt := 0, failCount := 0 }

/-- Second bookmark of the two-symlink destruction scenario. -/
def linkBookmarkB : Bookmark :=
  { uri := "smb://b/y", name := "B", enabled := true
    createSymlink := true, symlinkPath := "", lastAttempt := 0, failCount := 0 }

/-- The spec's destruction scenario: two active tracked symlinks (with
resolvable targets), one pending retry task and a live periodic
timer. -/
def twoLinkState : ExtState :=
  { bookmarks := [linkBookmarkA, linkBookmarkB]
    symlinkPaths := [("smb://a/x", "/b/A"), ("smb://b/y", "/b/B")]
    mountedLocations := [("smb://a/x", 1)]
    retryTasks := [{ id := 9, uri := "smb://a/x", delay := 30 }]
    timeoutId := some 5, nextId := 10
    fs := [("/b/A", Entry.symlink "/gvfs/a"), ("/b/B", Entry.symlink "/gvfs/b"),
           ("/gvfs/a", Entry.dir), ("/gvfs/b", Entry.dir)] }

theorem lookupA_eraseA_self {α : Type} (k : String) (l : List (String × α)) :
    lookupA k (eraseA k l) = none := by
  induction l with
  | nil => rfl
  | cons e t ih =>
    by_cases h : e.1 = k
    · simpa [eraseA, h] using ih
    · simpa [eraseA, lookupA, h] using ih

theorem lookupA_eraseA_ne {α : Type} {q k : String} (l : List (String × α))
    (h : q ≠ k) : lookupA q (eraseA k l) = lookupA q l := by
  induction l with
  | nil => rfl
  | cons e t ih =>
    simp only [eraseA, lookupA]
    by_cases he : e.1 = k
    · have hq : e.1 ≠ q := fun hh => h (hh.symm.trans he)
      rw [if_pos he, if_neg hq, ih]
    · rw [if_neg he]
      by_cases hq : e.1 = q
      · simp only [lookupA, if_pos hq]
      · simp only [lookupA, if_neg hq, ih]

theorem eraseA_eq_self {α : Type} {k : String} {l : List (String × α)}
    (h : lookupA k l = none) : eraseA k l = l := by
  induction l with
  | nil => rfl
  | cons e t ih =>
    by_cases he : e.1 = k
    · simp [lookupA, he] at h
    · simp only [lookupA, he, if_neg] at h
      simp [eraseA, he, ih h]

theorem eraseA_idem {α : Type} (k : String) (l : List (String × α)) :
    eraseA k (eraseA k l) = eraseA k l :=
  eraseA_eq_self (lookupA_eraseA_self k l)

theorem lookupA_setA_self {α : Type} (k : String) (v : α)
    (l : List (String × α)) : lookupA k (setA k v l) = some v := by
  simp [setA, lookupA]

theorem eraseA_setA_self {α : Type} (k : String) (v : α)
    (l : List (String × α)) : eraseA k (setA k v l) = eraseA k l := by
  simp [setA, eraseA, eraseA_idem]

theorem eraseA_cons_self {α : Type} (k : String) (v : α)
    (l : List (String × α)) : eraseA k ((k, v) :: l) = eraseA k l := by
  simp [eraseA]

theorem lookupA_eraseA_some {α : Type} {p q : String} {l : List (String × α)}
    {e : α} (h : lookupA p (eraseA q l) = some e) : lookupA p l = some e := by
  by_cases hpq : p = q
  · subst hpq; rw [lookupA_eraseA_self] at h; exact absurd h (by simp)
  · rwa [lookupA_eraseA_ne l hpq] at h

theorem mem_collapseRunsAux {p : Char → Bool} {r c : Char} :
    ∀ {flag : Bool} {l : List Char}, c ∈ collapseRunsAux p r flag l →
      c = r ∨ (c ∈ l ∧ p c = false) := by
  intro flag l
  induction l generalizing flag with
  | nil => intro h; simp [collapseRunsAux] at h
  | cons a t ih =>
    intro h
    simp only [collapseRunsAux] at h
    by_cases hpa : p a
    · rw [if_pos hpa] at h
      by_cases hf : flag
      · rw [if_pos hf] at h
        rcases ih h with h1 | h2
        · exact Or.inl h1
        · exact Or.inr ⟨List.mem_cons_of_mem _ h2.1, h2.2⟩
      · rw [if_neg hf] at h
        rcases List.mem_cons.mp h with h1 | h1
        · exact Or.inl h1
        · rcases ih h1 with h2 | h3
          · exact Or.inl h2
          · exact Or.inr ⟨List.mem_cons_of_mem _ h3.1, h3.2⟩
    · rw [if_neg hpa] at h
      rcases List.mem_cons.mp h with h1 | h1
      · subst h1
        exact Or.inr ⟨List.mem_cons_self _ _, by simpa using hpa⟩
      · rcases ih h1 with h2 | h3
        · exact Or.inl h2
        · exact Or.inr ⟨List.mem_cons_of_mem _ h3.1, h3.2⟩

theorem mem_dropLeadUnderscore {l : List Char} {c : Char}
    (h : c ∈ dropLeadUnderscore l) : c ∈ l := by
  cases l with
  | nil => simp [dropLeadUnderscore] at h
  | cons a t =>
    simp only [dropLeadUnderscore] at h
    by_cases ha : a = '_'
    · rw [if_pos ha] at h; exact List.mem_cons_of_mem _ h
    · rwa [if_neg ha] at h

theorem mem_trimEdgeUnderscores {l : List Char} {c : Char}
    (h : c ∈ trimEdgeUnderscores l) : c ∈ l := by
  unfold trimEdgeUnderscores at h
  rw [List.mem_reverse] at h
  have h2 := mem_dropLeadUnderscore h
  rw [List.mem_reverse] at h2
  exact mem_dropLeadUnderscore h2

theorem sanitize_char_classes (name : String) (c : Char)
    (h : c ∈ (sanitizeForFilename name).data) :
    isSpecialChar c = false ∧ isJsWhitespace c = false := by
  by_cases hc : c = '_'
  · subst hc; exact ⟨by decide, by decide⟩
  · have h3 : c ∈ collapseRuns (fun x => x = '_') '_'
        (collapseRuns isJsWhitespace '_'
          (name.data.map (fun x => if isSpecialChar x then '_' else x))) :=
      mem_trimEdgeUnderscores h
    rcases mem_collapseRunsAux h3 with h4 | h4
    · exact absurd h4 hc
    rcases mem_collapseRunsAux h4.1 with h5 | h5
    · exact absurd h5 hc
    rcases List.mem_map.mp h5.1 with ⟨a, _, ha⟩
    by_cases hsa : isSpecialChar a
    · rw [if_pos hsa] at ha; exact absurd ha.symm hc
    · rw [if_neg hsa] at ha
      subst ha
      exact ⟨by simpa using hsa, h5.2⟩

/-- C1: each failed mount attempt increments `failCount` by exactly 1
and stamps the attempt time; a retry task with delay `retry-delay` is
armed if and only if the incremented count is at most `retry-attempts`;
beyond the limit no retry is armed and the terminal "Mount Failed"
error notification is emitted. -/
theorem c1_mount_failure_retry_policy (s : Settings) (now : Nat)
    (st : ExtState) (b : Bookmark) (msg : String) :
    (handleMountFailure s now st b msg).1.failCount = b.failCount + 1 ∧
    (handleMountFailure s now st b msg).1.lastAttempt = now ∧
    ((((b.failCount + 1 : Nat) : Int) ≤ s.retryAttempts) ↔
      (handleMountFailure s now st b msg).2.1.retryTasks =
        st.retryTasks ++ [{ id := st.nextId, uri := b.uri, delay := s.retryDelay }]) ∧
    (¬ (((b.failCount + 1 : Nat) : Int) ≤ s.retryAttempts) →
      (handleMountFailure s now st b msg).2.1.retryTasks = st.retryTasks ∧
      (handleMountFailure s now st b msg).2.2.title = "Mount Failed" ∧
      (handleMountFailure s now st b msg).2.2.isError = true) := by
  unfold handleMountFailure scheduleRetry
  by_cases hc : (((b.failCount + 1 : Nat) : Int) ≤ s.retryAttempts)
  · rw [if_pos hc]
    exact ⟨rfl, rfl, iff_of_true hc rfl, fun hn => absurd hc hn⟩
  · rw [if_neg hc]
    refine ⟨rfl, rfl, ⟨fun h => absurd h hc, fun heq => ?_⟩,
      fun _ => ⟨rfl, rfl, rfl⟩⟩
    exact False.elim (by
      have := congrArg List.length heq
      simp at this)

/-- C1 witness: at the default retry limit 3, a fourth consecutive
failure arms no retry task. -/
theorem c1_witness :
    (handleMountFailure defaultSettings 9 emptyState
      { sampleBookmark with failCount := 3 } "e").2.1.retryTasks =
      emptyState.retryTasks :=
  (c1_mount_failure_retry_policy defaultSettings 9 emptyState
    { sampleBookmark with failCount := 3 } "e").2.2.2 (by decide) |>.1

/-- C2 counterexample: from a state with no pending tasks, two
consecutive `_scheduleRetry` calls for the same URI leave two
outstanding retry tasks, not at most one — scheduling adds instead of
replacing. -/
theorem c2_counterexample :
    ¬ countTasksFor sampleBookmark.uri
        (scheduleRetry (scheduleRetry emptyState sampleBookmark 30)
          sampleBookmark 30).retryTasks ≤ 1 := by decide

/-- C2 amended: `_scheduleRetry` appends exactly one new task for the
bookmark's URI and cancels or replaces nothing, so the pending count
for that URI strictly grows and every previously pending task (for any
URI) survives; multiple outstanding retry tasks per URI are possible. -/
theorem c2_schedule_appends (st : ExtState) (b : Bookmark) (d : Int)
    (u : String) :
    countTasksFor u (scheduleRetry st b d).retryTasks =
      countTasksFor u st.retryTasks + (if b.uri = u then 1 else 0) ∧
    ∀ t ∈ st.retryTasks, t ∈ (scheduleRetry st b d).retryTasks := by
  constructor
  · unfold scheduleRetry countTasksFor
    by_cases h : b.uri = u <;> simp [List.filter_append, h]
  · intro t ht
    unfold scheduleRetry
    exact List.mem_append.mpr (Or.inl ht)

/-- C2 amended witness: the pending task of `retryState` survives a new
`_scheduleRetry` call for the same bookmark. -/
theorem c2_witness :
    ({ id := 7, uri := "smb://server/share", delay := 30 } : RetryTask) ∈
      (scheduleRetry retryState sampleBookmark 30).retryTasks :=
  (c2_schedule_appends retryState sampleBookmark 30 "smb://server/share").2
    _ (by decide)

/-- C4 counterexample: on the name `a::b` the code's sanitizer yields
leaf `a_b` (underscore runs are collapsed), while the claim's stated
procedure — each special character replaced by an underscore, edge
underscores trimmed — yields `a__b`; the computed symlink path
therefore differs from the claimed one. -/
theorem c4_counterexample :
    getSymlinkPath defaultSettings "/home/u" claimLeafBookmark =
      "/home/u/NetworkMounts/a_b" ∧
    "/home/u/NetworkMounts/" ++ sanitizeSpecWorded claimLeafBookmark.name =
      "/home/u/NetworkMounts/a__b" ∧
    ("/home/u/NetworkMounts/a_b" : String) ≠ "/home/u/NetworkMounts/a__b" := by
  refine ⟨by decide, by decide, by decide⟩

/-- C4 amended: the symlink path is `baseDir/leafName` with `leafName`
the `symlinkPath` override when non-empty, else the sanitized name;
sanitization replaces the special characters and whitespace runs by
underscores, collapses underscore runs to a single one and trims edge
underscores, so the result contains no special or whitespace character;
the name `My Share: /data` yields leaf `My_Share_data`. -/
theorem c4_symlink_path_computation :
    (∀ (s : Settings) (h : String) (b : Bookmark), b.symlinkPath = "" →
      getSymlinkPath s h b =
        (if s.customMountBase = "" then h ++ "/NetworkMounts"
         else s.customMountBase) ++ "/" ++ sanitizeForFilename b.name) ∧
    (∀ (s : Settings) (h : String) (b : Bookmark), b.symlinkPath ≠ "" →
      getSymlinkPath s h b =
        (if s.customMountBase = "" then h ++ "/NetworkMounts"
         else s.customMountBase) ++ "/" ++ b.symlinkPath) ∧
    (∀ (name : String) (c : Char), c ∈ (sanitizeForFilename name).data →
      isSpecialChar c = false ∧ isJsWhitespace c = false) ∧
    sanitizeForFilename "My Share: /data" = "My_Share_data" := by
  refine ⟨?_, ?_, sanitize_char_classes, by decide⟩
  · intro s h b hb; simp [getSymlinkPath, hb]
  · intro s h b hb; simp [getSymlinkPath, hb]

/-- C4 amended witness: concrete path for `sampleBookmark` under
default settings, and the sanitized example name has no colon left. -/
theorem c4_witness :
    getSymlinkPath defaultSettings "/home/u" sampleBookmark =
      (if defaultSettings.customMountBase = "" then "/home/u" ++ "/NetworkMounts"
       else defaultSettings.customMountBase) ++ "/" ++
        sanitizeForFilename sampleBookmark.name ∧
    (isSpecialChar 'M' = false ∧ isJsWhitespace 'M' = false) :=
  ⟨c4_symlink_path_computation.1 defaultSettings "/home/u" sampleBookmark rfl,
   c4_symlink_path_computation.2.2.1 "My Share: /data" 'M' (by decide)⟩

/-- C6: `_removeSymlink` deletes the entry at the tracked-or-recomputed
link path only when that entry is a symbolic link (a regular file or
directory there, or an absent entry, leaves the filesystem untouched,
and no other path is affected); deletion happens exactly when the link
additionally still resolves, a dangling link being skipped by the
follow-symlinks existence check; and in every case the tracked record
for the bookmark's URI is cleared. -/
theorem c6_remove_only_symlinks (s : Settings) (homeDir : String)
    (st : ExtState) (b : Bookmark) :
    lookupA b.uri (removeSymlink s homeDir st b).symlinkPaths = none ∧
    (∀ q, q ≠ (lookupA b.uri st.symlinkPaths).getD (getSymlinkPath s homeDir b) →
      lookupA q (removeSymlink s homeDir st b).fs = lookupA q st.fs) ∧
    (isSymlinkEntry (lookupA
        ((lookupA b.uri st.symlinkPaths).getD (getSymlinkPath s homeDir b))
        st.fs) = false →
      (removeSymlink s homeDir st b).fs = st.fs) ∧
    (isSymlinkEntry (lookupA
        ((lookupA b.uri st.symlinkPaths).getD (getSymlinkPath s homeDir b))
        st.fs) = true →
      existsFollow st.fs
        ((lookupA b.uri st.symlinkPaths).getD (getSymlinkPath s homeDir b))
        = true →
      lookupA ((lookupA b.uri st.symlinkPaths).getD (getSymlinkPath s homeDir b))
        (removeSymlink s homeDir st b).fs = none) ∧
    (existsFollow st.fs
        ((lookupA b.uri st.symlinkPaths).getD (getSymlinkPath s homeDir b))
        = false →
      (removeSymlink s homeDir st b).fs = st.fs) := by
  unfold removeSymlink
  by_cases hg : (existsFollow st.fs
      ((lookupA b.uri st.symlinkPaths).getD (getSymlinkPath s homeDir b)) &&
    isSymlinkEntry (lookupA
      ((lookupA b.uri st.symlinkPaths).getD (getSymlinkPath s homeDir b))
      st.fs)) = true
  · have hef := (Bool.and_eq_true_iff.mp hg).1
    have hsym := (Bool.and_eq_true_iff.mp hg).2
    refine ⟨lookupA_eraseA_self _ _, ?_, ?_, ?_, ?_⟩
    · intro q hq; rw [if_pos hg]; exact lookupA_eraseA_ne st.fs hq
    · intro hfalse; rw [hsym] at hfalse; exact absurd hfalse (by simp)
    · intro _ _; rw [if_pos hg]; exact lookupA_eraseA_self _ _
    · intro hfalse; rw [hef] at hfalse; exact absurd hfalse (by simp)
  · refine ⟨lookupA_eraseA_self _ _, ?_, ?_, ?_, ?_⟩
    · intro q _; rw [if_neg hg]
    · intro _; rw [if_neg hg]
    · intro hsym hef
      exact absurd (by rw [hef, hsym]; rfl) hg
    · intro _; rw [if_neg hg]

/-- C6 witness: on `staleState` the tracked link `/base/S` is a symlink
with live target, so removal deletes it and clears the record. -/
theorem c6_witness :
    lookupA staleBookmark.uri
      (removeSymlink defaultSettings "/h" staleState staleBookmark).symlinkPaths
      = none ∧
    lookupA ((lookupA staleBookmark.uri staleState.symlinkPaths).getD
        (getSymlinkPath defaultSettings "/h" staleBookmark))
      (removeSymlink defaultSettings "/h" staleState staleBookmark).fs = none :=
  ⟨(c6_remove_only_symlinks defaultSettings "/h" staleState staleBookmark).1,
   (c6_remove_only_symlinks defaultSettings "/h" staleState
     staleBookmark).2.2.2.1 (by decide) (by decide)⟩

/-- C7: a successful mount attempt (bookmark not already mounted, the
asynchronous mount call succeeds) resets the bookmark's `failCount` to
0 and stamps the attempt time, for every prior `failCount` value. -/
theorem c7_success_resets_failcount (s : Settings) (homeDir : String)
    (now : Nat) (mounts : Mounts) (newPath : String) (st : ExtState)
    (b : Bookmark) (isRetry isStartup : Bool)
    (h : isLocationMounted mounts b.uri = false) :
    (mountLocation s homeDir now mounts true newPath st b isRetry
      isStartup).bookmark.failCount = 0 ∧
    (mountLocation s homeDir now mounts true newPath st b isRetry
      isStartup).bookmark.lastAttempt = now := by
  unfold mountLocation
  simp [h]

/-- C7 witness: a bookmark with nine prior failures is reset by a
successful mount. -/
theorem c7_witness :
    (mountLocation defaultSettings "/h" 5 [] true "/gvfs/p" emptyState
      { sampleBookmark with failCount := 9 } false false).bookmark.failCount
      = 0 :=
  (c7_success_resets_failcount defaultSettings "/h" 5 [] "/gvfs/p" emptyState
    { sampleBookmark with failCount := 9 } false false rfl).1

/-- C9: when `JSON.parse` of the persisted per-bookmark settings throws,
`_loadBookmarkSettings` leaves every freshly loaded bookmark at its
defaults (`enabled = true`, `createSymlink = false`, empty
`symlinkPath`, zero `failCount`), reports the diagnostic, and no error
escapes. -/
theorem c9_malformed_settings_nonfatal (contents : String) :
    (loadBookmarkSettings none (parseBookmarks contents)).2 = true ∧
    (loadBookmarkSettings none (parseBookmarks contents)).1 =
      parseBookmarks contents ∧
    ∀ b ∈ (loadBookmarkSettings none (parseBookmarks contents)).1,
      b.enabled = true ∧ b.createSymlink = false ∧
      b.symlinkPath = "" ∧ b.failCount = 0 := by
  refine ⟨rfl, rfl, ?_⟩
  intro b hb
  have hb' : b ∈ parseBookmarks contents := hb
  unfold parseBookmarks at hb'
  rcases List.mem_map.mp hb' with ⟨line, _, hline⟩
  rw [← hline]
  exact ⟨rfl, rfl, rfl, rfl⟩

/-- C9 witness: a one-line bookmarks file loaded against malformed
persisted settings keeps the default flags. -/
theorem c9_witness :
    (bookmarkOfLine "smb://server/share My Share").enabled = true ∧
    (bookmarkOfLine "smb://server/share My Share").createSymlink = false ∧
    (bookmarkOfLine "smb://server/share My Share").symlinkPath = "" ∧
    (bookmarkOfLine "smb://server/share My Share").failCount = 0 :=
  (c9_malformed_settings_nonfatal "smb://server/share My Share").2.2
    (bookmarkOfLine "smb://server/share My Share") (by
      have h : (loadBookmarkSettings none
          (parseBookmarks "smb://server/share My Share")).1 =
          [bookmarkOfLine "smb://server/share My Share"] := by decide
      rw [h]
      exact List.mem_singleton.mpr rfl)

/-- C10: with `show-notifications` false every notification is
suppressed, error or not; a displayed non-error notification forces
`show-success-notifications` to be true, whose schema default is false;
and the manual reconcile summary and both bulk-action count
notifications are emitted as non-error notifications. -/
theorem c10_notification_gating :
    (∀ (s : Settings) (e : Bool), s.showNotifications = false →
      notifyShown s e = false) ∧
    (∀ s : Settings, notifyShown s false = true →
      s.showSuccessNotifications = true) ∧
    defaultSettings.showSuccessNotifications = false ∧
    (∀ total mounted : Nat,
      (checkAndMountAllNotification true total mounted).map
        Notification.isError = some false) ∧
    (∀ n : Nat, (mountAllEnabledNotification n).isError = false) ∧
    (∀ n : Nat, (unmountAllNotification n).isError = false) := by
  refine ⟨?_, ?_, rfl, fun total mounted => rfl, fun n => rfl, fun n => rfl⟩
  · intro s e h; simp [notifyShown, h]
  · intro s h
    by_cases h1 : s.showSuccessNotifications
    · exact h1
    · exfalso
      have h1' : s.showSuccessNotifications = false := by simpa using h1
      simp [notifyShown, h1'] at h

/-- C10 witness: disabling `show-notifications` suppresses even an
error notification with `show-error-notifications` at its default
true. -/
theorem c10_witness :
    notifyShown { defaultSettings with showNotifications := false } true
      = false :=
  c10_notification_gating.1 { defaultSettings with showNotifications := false }
    true rfl

/-- C3 counterexample: toggling `enabled` off leaves the pending retry
task for that bookmark's URI in place — nothing is cancelled. -/
theorem c3_counterexample :
    (setEnabled retryState 0 false).bookmarks.map Bookmark.enabled = [false] ∧
    (setEnabled retryState 0 false).retryTasks =
      [{ id := 7, uri := "smb://server/share", delay := 30 }] := by decide

/-- C3 amended: disabling a bookmark does not cancel its pending retry
task; instead the task stays armed and its firing re-checks `enabled`,
so it performs no mount attempt for a disabled bookmark; reconciliation
never emits a mount attempt for a disabled bookmark, and still ensures
its symlink when it is observed mounted with `createSymlink` set. -/
theorem c3_disable_behavior :
    (∀ (st : ExtState) (i : Nat) (v : Bool),
      (setEnabled st i v).retryTasks = st.retryTasks) ∧
    (∀ (mounts : Mounts) (st : ExtState) (t : RetryTask) (b : Bookmark),
      st.bookmarks.find? (fun x => x.uri = t.uri) = some b →
      b.enabled = false → (fireRetry mounts st t).2 = false) ∧
    (∀ (mounts : Mounts) (b : Bookmark), b.enabled = false →
      ∀ u : String, Action.mountAttempt u ∉ reconcileOne mounts b) ∧
    (∀ (mounts : Mounts) (b : Bookmark), b.enabled = false →
      isLocationMounted mounts b.uri = true → b.createSymlink = true →
      reconcileOne mounts b = [Action.ensureSymlink b.uri]) := by
  refine ⟨fun st i v => rfl, ?_, ?_, ?_⟩
  · intro mounts st t b hfind hen
    unfold fireRetry
    simp only []
    rw [show ({ st with
        retryTasks := st.retryTasks.filter (fun x => x.id ≠ t.id) } :
        ExtState).bookmarks = st.bookmarks from rfl, hfind]
    show (b.enabled && !isLocationMounted mounts t.uri) = false
    rw [hen]
    simp
  · intro mounts b hen u
    unfold reconcileOne
    rw [hen]
    simp only [Bool.false_eq_true, if_false]
    by_cases hm : isLocationMounted mounts b.uri && b.createSymlink
    · rw [if_pos hm]; simp
    · rw [if_neg hm]; simp
  · intro mounts b hen hm hcs
    unfold reconcileOne
    rw [hen, hm, hcs]
    simp

/-- C3 amended witness: for a disabled `sampleBookmark` observed as
mounted, reconciliation only maintains the symlink, and a retry firing
attempts no mount. -/
theorem c3_witness :
    (setEnabled retryState 0 false).retryTasks = retryState.retryTasks ∧
    reconcileOne [("smb://server/share", "/gvfs/p")]
      { sampleBookmark with enabled := false } =
      [Action.ensureSymlink "smb://server/share"] ∧
    (fireRetry [] (setEnabled retryState 0 false)
      { id := 7, uri := "smb://server/share", delay := 30 }).2 = false :=
  ⟨c3_disable_behavior.1 retryState 0 false,
   c3_disable_behavior.2.2.2 [("smb://server/share", "/gvfs/p")]
     { sampleBookmark with enabled := false } rfl (by decide) rfl,
   c3_disable_behavior.2.1 [] (setEnabled retryState 0 false)
     { id := 7, uri := "smb://server/share", delay := 30 }
     { sampleBookmark with enabled := false } (by decide) rfl⟩

theorem liveSymlinkAt_eq_true (fs : Fs) (p : String) :
    liveSymlinkAt fs p = true ↔
      ∃ t, lookupA p fs = some (Entry.symlink t) ∧
        (lookupA t fs).isSome = true := by
  unfold liveSymlinkAt existsFollow
  cases hl : lookupA p fs with
  | none => simp [isSymlinkEntry]
  | some e => cases e <;> simp [isSymlinkEntry]

theorem removeSymlink_fields (s : Settings) (homeDir : String)
    (st : ExtState) (b : Bookmark) :
    (removeSymlink s homeDir st b).bookmarks = st.bookmarks ∧
    (removeSymlink s homeDir st b).retryTasks = st.retryTasks ∧
    (removeSymlink s homeDir st b).timeoutId = st.timeoutId :=
  ⟨rfl, rfl, rfl⟩

theorem cleanupStep_fields (s : Settings) (homeDir : String)
    (acc : ExtState) (b : Bookmark) :
    (cleanupStep s homeDir acc b).bookmarks = acc.bookmarks ∧
    (cleanupStep s homeDir acc b).retryTasks = acc.retryTasks ∧
    (cleanupStep s homeDir acc b).timeoutId = acc.timeoutId := by
  unfold cleanupStep
  split
  · exact removeSymlink_fields s homeDir acc b
  · exact ⟨rfl, rfl, rfl⟩

theorem cleanupFoldl_fields (s : Settings) (homeDir : String)
    (bs : List Bookmark) (acc : ExtState) :
    (bs.foldl (cleanupStep s homeDir) acc).retryTasks = acc.retryTasks ∧
    (bs.foldl (cleanupStep s homeDir) acc).timeoutId = acc.timeoutId := by
  induction bs generalizing acc with
  | nil => exact ⟨rfl, rfl⟩
  | cons hd tl ih =>
    rw [List.foldl_cons]
    rcases ih (cleanupStep s homeDir acc hd) with ⟨h1, h2⟩
    rcases cleanupStep_fields s homeDir acc hd with ⟨_, h3, h4⟩
    exact ⟨h1.trans h3, h2.trans h4⟩

theorem removeSymlink_fs_some {s : Settings} {homeDir : String}
    {st : ExtState} {b : Bookmark} {p : String} {e : Entry}
    (h : lookupA p (removeSymlink s homeDir st b).fs = some e) :
    lookupA p st.fs = some e := by
  unfold removeSymlink at h
  by_cases hg : (existsFollow st.fs
      ((lookupA b.uri st.symlinkPaths).getD (getSymlinkPath s homeDir b)) &&
    isSymlinkEntry (lookupA
      ((lookupA b.uri st.symlinkPaths).getD (getSymlinkPath s homeDir b))
      st.fs)) = true
  · rw [if_pos hg] at h
    exact lookupA_eraseA_some h
  · rwa [if_neg hg] at h

theorem cleanupFoldl_fs_some {s : Settings} {homeDir : String}
    (bs : List Bookmark) {acc : ExtState} {p : String} {e : Entry}
    (h : lookupA p (bs.foldl (cleanupStep s homeDir) acc).fs = some e) :
    lookupA p acc.fs = some e := by
  induction bs generalizing acc with
  | nil => exact h
  | cons hd tl ih =>
    rw [List.foldl_cons] at h
    have h1 := ih h
    unfold cleanupStep at h1
    by_cases hc : hd.createSymlink
    · rw [if_pos hc] at h1; exact removeSymlink_fs_some h1
    · rwa [if_neg hc] at h1

theorem cleanupFoldl_not_live {s : Settings} {homeDir : String}
    (bs : List Bookmark) {acc : ExtState} {p : String}
    (h : liveSymlinkAt acc.fs p = false) :
    liveSymlinkAt (bs.foldl (cleanupStep s homeDir) acc).fs p = false := by
  by_contra hcontra
  have htrue : liveSymlinkAt
      (bs.foldl (cleanupStep s homeDir) acc).fs p = true := by
    simpa using hcontra
  rcases (liveSymlinkAt_eq_true _ _).mp htrue with ⟨t, ht, hts⟩
  have h1 := cleanupFoldl_fs_some bs ht
  rcases Option.isSome_iff_exists.mp hts with ⟨e, he⟩
  have h2 := cleanupFoldl_fs_some bs he
  have hlive : liveSymlinkAt acc.fs p = true :=
    (liveSymlinkAt_eq_true _ _).mpr ⟨t, h1, by rw [h2]; rfl⟩
  rw [hlive] at h
  exact absurd h (by simp)

theorem removeSymlink_no_live_left (s : Settings) (homeDir : String)
    (st : ExtState) (b : Bookmark) :
    liveSymlinkAt (removeSymlink s homeDir st b).fs
      ((lookupA b.uri st.symlinkPaths).getD (getSymlinkPath s homeDir b))
      = false := by
  unfold removeSymlink
  by_cases hg : (existsFollow st.fs
      ((lookupA b.uri st.symlinkPaths).getD (getSymlinkPath s homeDir b)) &&
    isSymlinkEntry (lookupA
      ((lookupA b.uri st.symlinkPaths).getD (getSymlinkPath s homeDir b))
      st.fs)) = true
  · rw [if_pos hg]
    unfold liveSymlinkAt
    rw [lookupA_eraseA_self]
    simp [isSymlinkEntry]
  · rw [if_neg hg]
    unfold liveSymlinkAt
    simpa using hg

theorem cleanupStep_symlinkPaths_ne {s : Settings} {homeDir : String}
    (acc : ExtState) (hd : Bookmark) {u : String} (h : u ≠ hd.uri) :
    lookupA u (cleanupStep s homeDir acc hd).symlinkPaths =
      lookupA u acc.symlinkPaths := by
  unfold cleanupStep
  by_cases hc : hd.createSymlink
  · rw [if_pos hc]
    exact lookupA_eraseA_ne acc.symlinkPaths h
  · rw [if_neg hc]

theorem cleanupFoldl_no_live (s : Settings) (homeDir : String)
    (bs : List Bookmark) :
    ∀ acc : ExtState, bs.Pairwise (fun a b => a.uri ≠ b.uri) →
    ∀ b ∈ bs, b.createSymlink = true →
    liveSymlinkAt (bs.foldl (cleanupStep s homeDir) acc).fs
      ((lookupA b.uri acc.symlinkPaths).getD (getSymlinkPath s homeDir b))
      = false := by
  induction bs with
  | nil => intro acc _ b hb; simp at hb
  | cons hd tl ih =>
    intro acc hpw b hb hcs
    rw [List.foldl_cons]
    rcases List.mem_cons.mp hb with hbhd | hbtl
    · subst hbhd
      have h1 : liveSymlinkAt (cleanupStep s homeDir acc b).fs
          ((lookupA b.uri acc.symlinkPaths).getD (getSymlinkPath s homeDir b))
          = false := by
        unfold cleanupStep
        rw [if_pos hcs]
        exact removeSymlink_no_live_left s homeDir acc b
      exact cleanupFoldl_not_live tl h1
    · have hne : b.uri ≠ hd.uri :=
        fun hu => ((List.pairwise_cons.mp hpw).1 b hbtl) hu.symm
      have hlook := @cleanupStep_symlinkPaths_ne s homeDir acc hd b.uri hne
      have := ih (cleanupStep s homeDir acc hd)
        (List.pairwise_cons.mp hpw).2 b hbtl hcs
      rwa [hlook] at this

theorem extState_eq_of (a c : ExtState) (h1 : a.bookmarks = c.bookmarks)
    (h2 : a.symlinkPaths = c.symlinkPaths)
    (h3 : a.mountedLocations = c.mountedLocations)
    (h4 : a.retryTasks = c.retryTasks) (h5 : a.timeoutId = c.timeoutId)
    (h6 : a.nextId = c.nextId) (h7 : a.fs = c.fs) : a = c := by
  cases a; cases c; simp_all

theorem lookupA_cons_self {α : Type} (k : String) (v : α)
    (l : List (String × α)) : lookupA k ((k, v) :: l) = some v := by
  simp [lookupA]

theorem lookupA_cons_ne {α : Type} (v : α) (l : List (String × α))
    {k q : String} (h : k ≠ q) : lookupA q ((k, v) :: l) = lookupA q l := by
  simp [lookupA, h]

theorem mkBaseDir_symlinkPaths (st : ExtState) (d : String) :
    (mkBaseDir st d).symlinkPaths = st.symlinkPaths := by
  unfold mkBaseDir; split <;> rfl

theorem mkBaseDir_isSome (st : ExtState) (d : String) :
    (lookupA d (mkBaseDir st d).fs).isSome = true := by
  unfold mkBaseDir
  by_cases h : (lookupA d st.fs).isSome = true
  · rw [if_pos h]; exact h
  · rw [if_neg h]
    show (lookupA d ((d, Entry.dir) :: st.fs)).isSome = true
    rw [lookupA_cons_self]; rfl

theorem removeSymlink_idem (s : Settings) (homeDir : String) (st : ExtState)
    (b : Bookmark) (hc : trackedConsistent s homeDir st b) :
    removeSymlink s homeDir (removeSymlink s homeDir st b) b =
      removeSymlink s homeDir st b := by
  have hpath : (lookupA b.uri st.symlinkPaths).getD (getSymlinkPath s homeDir b)
      = getSymlinkPath s homeDir b := by
    rcases hc with h | h <;> rw [h] <;> rfl
  refine extState_eq_of _ _ rfl ?_ rfl rfl rfl rfl ?_
  · show eraseA b.uri (eraseA b.uri st.symlinkPaths) = eraseA b.uri st.symlinkPaths
    exact eraseA_idem _ _
  · show (if existsFollow (removeSymlink s homeDir st b).fs ((lookupA b.uri (eraseA b.uri st.symlinkPaths)).getD (getSymlinkPath s homeDir b)) && isSymlinkEntry (lookupA ((lookupA b.uri (eraseA b.uri st.symlinkPaths)).getD (getSymlinkPath s homeDir b)) (removeSymlink s homeDir st b).fs) then eraseA ((lookupA b.uri (eraseA b.uri st.symlinkPaths)).getD (getSymlinkPath s homeDir b)) (removeSymlink s homeDir st b).fs else (removeSymlink s homeDir st b).fs) = (removeSymlink s homeDir st b).fs
    rw [lookupA_eraseA_self, Option.getD_none]
    have hRfs : (removeSymlink s homeDir st b).fs = (if existsFollow st.fs ((lookupA b.uri st.symlinkPaths).getD (getSymlinkPath s homeDir b)) && isSymlinkEntry (lookupA ((lookupA b.uri st.symlinkPaths).getD (getSymlinkPath s homeDir b)) st.fs) then eraseA ((lookupA b.uri st.symlinkPaths).getD (getSymlinkPath s homeDir b)) st.fs else st.fs) := rfl
    rw [hRfs, hpath]
    by_cases hg : (existsFollow st.fs (getSymlinkPath s homeDir b) &&
        isSymlinkEntry (lookupA (getSymlinkPath s homeDir b) st.fs)) = true
    · rw [if_pos hg, lookupA_eraseA_self]
      simp [isSymlinkEntry]
    · rw [if_neg hg, if_neg hg]

theorem createSymlink_fs_idem (s : Settings) (homeDir : String)
    (mounts : Mounts) (st : ExtState) (b : Bookmark)
    (hc : trackedConsistent s homeDir st b) :
    (createSymlink s homeDir mounts (createSymlink s homeDir mounts st b) b).fs
      = (createSymlink s homeDir mounts st b).fs := by
  by_cases hcs : b.createSymlink = true
  case neg =>
    have hb : b.createSymlink = false := by simpa using hcs
    simp [createSymlink, hb]
  case pos =>
  cases hm : lookupA b.uri mounts with
  | none => simp [createSymlink, hcs, hm]
  | some g =>
    simp only [createSymlink, hcs, hm, Bool.not_true, Bool.false_eq_true,
      if_false]
    set P := getSymlinkPath s homeDir b with hP
    set D := dirname P with hD
    set st2 := removeSymlink s homeDir (mkBaseDir st D) b with hst2
    have hMsp : (mkBaseDir st D).symlinkPaths = st.symlinkPaths :=
      mkBaseDir_symlinkPaths st D
    have hpathM : (lookupA b.uri (mkBaseDir st D).symlinkPaths).getD P = P := by
      rw [hMsp]; rcases hc with h | h <;> rw [h] <;> rfl
    have hst2sp : st2.symlinkPaths = eraseA b.uri st.symlinkPaths := by
      rw [hst2]
      show eraseA b.uri (mkBaseDir st D).symlinkPaths = eraseA b.uri st.symlinkPaths
      rw [hMsp]
    have hlookup2 : lookupA b.uri st2.symlinkPaths = none := by
      rw [hst2sp]; exact lookupA_eraseA_self _ _
    have hfs2 : st2.fs = (if (existsFollow (mkBaseDir st D).fs P &&
        isSymlinkEntry (lookupA P (mkBaseDir st D).fs)) = true
        then eraseA P (mkBaseDir st D).fs else (mkBaseDir st D).fs) := by
      rw [hst2]
      show (if existsFollow (mkBaseDir st D).fs ((lookupA b.uri (mkBaseDir st D).symlinkPaths).getD P) && isSymlinkEntry (lookupA ((lookupA b.uri (mkBaseDir st D).symlinkPaths).getD P) (mkBaseDir st D).fs) then eraseA ((lookupA b.uri (mkBaseDir st D).symlinkPaths).getD P) (mkBaseDir st D).fs else (mkBaseDir st D).fs) = _
      rw [hpathM]
    cases hlook : lookupA P st2.fs with
    | some e =>
      simp only [hlook]
      have hgate : (existsFollow (mkBaseDir st D).fs P &&
          isSymlinkEntry (lookupA P (mkBaseDir st D).fs)) = false ∧
          st2.fs = (mkBaseDir st D).fs := by
        by_cases hG : (existsFollow (mkBaseDir st D).fs P &&
            isSymlinkEntry (lookupA P (mkBaseDir st D).fs)) = true
        · exfalso
          rw [hfs2, if_pos hG, lookupA_eraseA_self] at hlook
          exact Option.noConfusion hlook
        · exact ⟨by simpa using hG, by rw [hfs2, if_neg hG]⟩
      have hDst2 : (lookupA D st2.fs).isSome = true := by
        rw [hgate.2]; exact mkBaseDir_isSome st D
      have hMD2 : mkBaseDir st2 D = st2 := by
        unfold mkBaseDir; rw [if_pos hDst2]
      have hR : removeSymlink s homeDir st2 b = st2 := by
        refine extState_eq_of _ _ rfl ?_ rfl rfl rfl rfl ?_
        · show eraseA b.uri st2.symlinkPaths = st2.symlinkPaths
          exact eraseA_eq_self hlookup2
        · show (if existsFollow st2.fs ((lookupA b.uri st2.symlinkPaths).getD P) && isSymlinkEntry (lookupA ((lookupA b.uri st2.symlinkPaths).getD P) st2.fs) then eraseA ((lookupA b.uri st2.symlinkPaths).getD P) st2.fs else st2.fs) = st2.fs
          rw [hlookup2, Option.getD_none,
            if_neg (by rw [hgate.2, hgate.1]; simp)]
      rw [hMD2, hR, hlook]
    | none =>
      simp only [hlook]
      set R1 : ExtState := { st2 with
        fs := (P, Entry.symlink g) :: st2.fs
        symlinkPaths := setA b.uri P st2.symlinkPaths } with hR1
      have hR1fs : R1.fs = (P, Entry.symlink g) :: st2.fs := rfl
      have hR1sp : R1.symlinkPaths = setA b.uri P st2.symlinkPaths := rfl
      have hPlook : lookupA P R1.fs = some (Entry.symlink g) := by
        rw [hR1fs]; exact lookupA_cons_self _ _ _
      have hDR1 : (lookupA D R1.fs).isSome = true := by
        by_cases hDP : P = D
        · rw [hR1fs, ← hDP, lookupA_cons_self]; rfl
        · rw [hR1fs, lookupA_cons_ne _ _ hDP]
          have hD2 : lookupA D st2.fs = lookupA D (mkBaseDir st D).fs := by
            rw [hfs2]
            by_cases hG : (existsFollow (mkBaseDir st D).fs P &&
                isSymlinkEntry (lookupA P (mkBaseDir st D).fs)) = true
            · rw [if_pos hG]
              exact lookupA_eraseA_ne _ (fun hDP2 => hDP hDP2.symm)
            · rw [if_neg hG]
          rw [hD2]; exact mkBaseDir_isSome st D
      have hMD2 : mkBaseDir R1 D = R1 := by
        unfold mkBaseDir; rw [if_pos hDR1]
      have hRtrack : lookupA b.uri R1.symlinkPaths = some P := by
        rw [hR1sp]; exact lookupA_setA_self _ _ _
      have hefg : existsFollow R1.fs P = (lookupA g R1.fs).isSome := by
        unfold existsFollow
        rw [hPlook]
      by_cases halive : (lookupA g R1.fs).isSome = true
      · have hef : existsFollow R1.fs P = true := by rw [hefg, halive]
        have hfsR : removeSymlink s homeDir R1 b = st2 := by
          refine extState_eq_of _ _ rfl ?_ rfl rfl rfl rfl ?_
          · show eraseA b.uri R1.symlinkPaths = st2.symlinkPaths
            rw [hR1sp, eraseA_setA_self, hst2sp, eraseA_idem]
          · show (if existsFollow R1.fs ((lookupA b.uri R1.symlinkPaths).getD P) && isSymlinkEntry (lookupA ((lookupA b.uri R1.symlinkPaths).getD P) R1.fs) then eraseA ((lookupA b.uri R1.symlinkPaths).getD P) R1.fs else R1.fs) = st2.fs
            rw [hRtrack, Option.getD_some,
              if_pos (by rw [hef, hPlook]; rfl)]
            rw [hR1fs, eraseA_cons_self]
            exact eraseA_eq_self hlook
        rw [hMD2, hfsR, hlook]
      · have hef : existsFollow R1.fs P = false := by
          rw [hefg]; simpa using halive
        have hfsR : (removeSymlink s homeDir R1 b).fs = R1.fs := by
          show (if existsFollow R1.fs ((lookupA b.uri R1.symlinkPaths).getD P) && isSymlinkEntry (lookupA ((lookupA b.uri R1.symlinkPaths).getD P) R1.fs) then eraseA ((lookupA b.uri R1.symlinkPaths).getD P) R1.fs else R1.fs) = R1.fs
          rw [hRtrack, Option.getD_some, hef]
          simp
        rw [hMD2]
        rw [hfsR, hPlook]
        show (removeSymlink s homeDir R1 b).fs = R1.fs
        exact hfsR

/-- C8 counterexample: with a stale tracked record — the record for the
URI points at `/base/M` while the computed desired path is `/base/L`,
symlinks existing at both — one `_removeSymlink` call deletes only
`/base/M` and leaves the `/base/L` symlink, while a second call also
deletes `/base/L`: remove is not idempotent on the filesystem. -/
theorem c8_counterexample :
    lookupA "/base/L"
      (removeSymlink baseSettings "/h" staleTrackState overrideBookmark).fs =
      some (Entry.symlink "/g2") ∧
    lookupA "/base/L"
      (removeSymlink baseSettings "/h"
        (removeSymlink baseSettings "/h" staleTrackState overrideBookmark)
        overrideBookmark).fs = none := by decide

/-- C8 amended: when the tracked symlink record for the bookmark's URI
is absent or equals the computed desired path, both operations are
idempotent — a second consecutive `_removeSymlink` leaves the whole
state unchanged, and a second consecutive `_createSymlink` produces the
same filesystem end-state.  With a stale record the second remove can
delete one more symlink. -/
theorem c8_ensure_remove_idempotent (s : Settings) (homeDir : String)
    (st : ExtState) (b : Bookmark) (hc : trackedConsistent s homeDir st b) :
    removeSymlink s homeDir (removeSymlink s homeDir st b) b =
      removeSymlink s homeDir st b ∧
    ∀ mounts : Mounts,
      (createSymlink s homeDir mounts (createSymlink s homeDir mounts st b)
        b).fs = (createSymlink s homeDir mounts st b).fs :=
  ⟨removeSymlink_idem s homeDir st b hc,
   fun mounts => createSymlink_fs_idem s homeDir mounts st b hc⟩

/-- C8 amended witness: on the quiescent state, whose tracked map is
empty, both operations are idempotent for `sampleBookmark`. -/
theorem c8_witness :
    removeSymlink defaultSettings "/h"
      (removeSymlink defaultSettings "/h" emptyState sampleBookmark)
      sampleBookmark =
      removeSymlink defaultSettings "/h" emptyState sampleBookmark ∧
    (createSymlink defaultSettings "/h" [("smb://server/share", "/gvfs/p")]
      (createSymlink defaultSettings "/h" [("smb://server/share", "/gvfs/p")]
        emptyState sampleBookmark) sampleBookmark).fs =
      (createSymlink defaultSettings "/h" [("smb://server/share", "/gvfs/p")]
        emptyState sampleBookmark).fs :=
  have h := c8_ensure_remove_idempotent defaultSettings "/h" emptyState
    sampleBookmark (Or.inl (by decide))
  ⟨h.1, h.2 [("smb://server/share", "/gvfs/p")]⟩

/-- C5 counterexample: destroying a controller whose tracked symlink
belongs to a bookmark with `createSymlink = false` clears the tracking
but leaves the managed symlink on disk, so not every managed symlink is
removed. -/
theorem c5_counterexample :
    lookupA staleBookmark.uri staleState.symlinkPaths = some "/base/S" ∧
    isSymlinkEntry (lookupA "/base/S"
      (destroy defaultSettings "/home/u" staleState).fs) = true ∧
    danglingBookmark.createSymlink = true ∧
    lookupA danglingBookmark.uri danglingState.symlinkPaths = some "/b/D" ∧
    isSymlinkEntry (lookupA "/b/D"
      (destroy defaultSettings "/home/u" danglingState).fs) = true := by decide

/-- C5 amended: destroying the controller cancels the periodic timer,
drops every pending retry task and clears the tracked symlink map; and
for every bookmark that still has `createSymlink = true` (URIs being
distinct), no live symlink remains at its tracked-or-recomputed link
path — a resolvable link is deleted.  Tracked symlinks of bookmarks
whose `createSymlink` is off, and dangling symlinks (the
follow-symlinks existence check skips them), are only untracked, their
filesystem entries remain. -/
theorem c5_destroy_cleanup (s : Settings) (homeDir : String) (st : ExtState)
    (hdist : st.bookmarks.Pairwise (fun a b => a.uri ≠ b.uri)) :
    (destroy s homeDir st).timeoutId = none ∧
    (destroy s homeDir st).retryTasks = [] ∧
    (destroy s homeDir st).symlinkPaths = [] ∧
    ∀ b ∈ st.bookmarks, b.createSymlink = true →
      liveSymlinkAt (destroy s homeDir st).fs
        ((lookupA b.uri st.symlinkPaths).getD (getSymlinkPath s homeDir b))
        = false := by
  unfold destroy cleanupAllSymlinks
  refine ⟨?_, ?_, rfl, ?_⟩
  · exact (cleanupFoldl_fields s homeDir st.bookmarks _).2
  · exact (cleanupFoldl_fields s homeDir st.bookmarks _).1
  · intro b hb hcs
    exact cleanupFoldl_no_live s homeDir st.bookmarks
      { st with timeoutId := none, retryTasks := [] } hdist b hb hcs

/-- C5 amended witness: the spec's scenario — two active live symlinks
and one pending retry task — ends with no timer, no tasks, no tracked
map, and both link entries actually deleted from the filesystem. -/
theorem c5_witness :
    (destroy defaultSettings "/h" twoLinkState).timeoutId = none ∧
    (destroy defaultSettings "/h" twoLinkState).retryTasks = [] ∧
    (destroy defaultSettings "/h" twoLinkState).symlinkPaths = [] ∧
    liveSymlinkAt (destroy defaultSettings "/h" twoLinkState).fs
      ((lookupA linkBookmarkA.uri twoLinkState.symlinkPaths).getD
        (getSymlinkPath defaultSettings "/h" linkBookmarkA)) = false ∧
    liveSymlinkAt (destroy defaultSettings "/h" twoLinkState).fs
      ((lookupA linkBookmarkB.uri twoLinkState.symlinkPaths).getD
        (getSymlinkPath defaultSettings "/h" linkBookmarkB)) = false ∧
    lookupA "/b/A" (destroy defaultSettings "/h" twoLinkState).fs = none ∧
    lookupA "/b/B" (destroy defaultSettings "/h" twoLinkState).fs = none :=
  have h := c5_destroy_cleanup defaultSettings "/h" twoLinkState (by
    refine List.pairwise_cons.mpr ⟨?_, List.pairwise_singleton _ _⟩
    intro b hb
    rw [List.mem_singleton.mp hb]
    decide)
  ⟨h.1, h.2.1, h.2.2.1,
   h.2.2.2 linkBookmarkA (List.mem_cons_self _ _) rfl,
   h.2.2.2 linkBookmarkB (List.mem_cons_of_mem _ (List.mem_cons_self _ _)) rfl,
   by decide, by decide⟩

end NetworkShareAutomount
